import Mathlib

/-!
Verification of the absenteeism_at_work repository: a shallow embedding of
the data-cleaning pipeline (absenteeism_at_work/features.py), the model
selection loop (absenteeism_at_work/modeling/train.py), the prediction
service (absenteeism_at_work/api.py) and feature preparation
(absenteeism_at_work/modeling/train.py), together with theorems settling
the specification's claims about them.

Machine floats are idealised as rationals; pandas cells are `Option ℚ`
with `none` for NaN; pandas dataframes are association lists from column
names to cell lists; Python exceptions are `Except String`.
-/

namespace Absenteeism

/-- Results of fallible code are compared by deciding both branches. -/
instance {ε α : Type} [DecidableEq ε] [DecidableEq α] : DecidableEq (Except ε α) :=
  fun a b =>
    match a, b with
    | .ok x, .ok y =>
      if h : x = y then .isTrue (by rw [h])
      else .isFalse (by intro hc; cases hc; exact h rfl)
    | .error e, .error f =>
      if h : e = f then .isTrue (by rw [h])
      else .isFalse (by intro hc; cases hc; exact h rfl)
    | .ok _, .error _ => .isFalse (by intro hc; cases hc)
    | .error _, .ok _ => .isFalse (by intro hc; cases hc)

/-- A raw input cell, as read from the raw CSV, abstracted by how Python's
`float()` treats it: `num q` is a numeric cell holding the finite value `q`;
`strNum q` is a string cell that `float()` parses to the finite value `q`
(whitespace around the text is irrelevant, `float` ignores it); `strBad` is a
string cell on which `float()` raises, or which parses to a non-finite value
(NaN/inf, on which Python's `round` then raises, caught by `safe_convert`);
`missing` is a missing cell (NaN / None). -/
inductive RawCell where
  | num (q : ℚ)
  | strNum (q : ℚ)
  | strBad
  | missing
deriving DecidableEq, Repr

/-- Python's built-in `round` to an integer (also numpy's `round(0)`):
round half to even. -/
def pyRound (q : ℚ) : ℤ :=
  if q - (q.floor : ℚ) < 1/2 then q.floor
  else if (1:ℚ)/2 < q - (q.floor : ℚ) then q.floor + 1
  else if q.floor % 2 = 0 then q.floor else q.floor + 1

/-- `safe_convert` from `SafeRoundToInt.transform` (features.py lines 26-30):
`round(float(val)) if not pd.isnull(val) else np.nan`, with every exception
caught and turned into `np.nan`. Total: it never raises. -/
def safeConvert : RawCell → Option ℚ
  | .num q => some ((pyRound q : ℤ) : ℚ)
  | .strNum q => some ((pyRound q : ℤ) : ℚ)
  | .strBad => none
  | .missing => none

/-- A numeric pandas column: cells are rationals or NaN. -/
abbrev Col := List (Option ℚ)

/-- A raw dataframe: association list of column name to raw cells. -/
abbrev RawDf := List (String × List RawCell)

/-- A numeric dataframe (all columns float dtype, as after stage 3). -/
abbrev NumDf := List (String × Col)

/-- Column selection `df[name]`: the first column with the given label. -/
def getCol {α : Type} (df : List (String × α)) (name : String) : Option α :=
  match df with
  | [] => none
  | c :: rest => if c.1 == name then some c.2 else getCol rest name

/-- Column assignment `df[name] = newCol` for an existing label. -/
def setCol {α : Type} (df : List (String × α)) (name : String) (newCol : α) :
    List (String × α) :=
  match df with
  | [] => []
  | c :: rest => (if c.1 == name then (name, newCol) else c) :: setCol rest name newCol

/-- The labels of a dataframe, in order. -/
def colNames {α : Type} (df : List (String × α)) : List String :=
  df.map (fun c => c.1)

/-- Apply a fallible function to every element, stopping at the first error
(the semantics of a Python loop that may raise). -/
def exceptMap {α β : Type} (f : α → Except String β) :
    List α → Except String (List β)
  | [] => .ok []
  | a :: l =>
    match f a with
    | .error e => .error e
    | .ok b =>
      match exceptMap f l with
      | .error e => .error e
      | .ok l' => .ok (b :: l')

/-- Stage 1, `DropColumns.transform` (features.py line 11):
`X.drop(['ID', 'mixed_type_col'], axis=1)`. pandas `drop` with the default
`errors='raise'` raises `KeyError` when any listed label is absent. -/
def dropColumns (df : RawDf) : Except String RawDf :=
  if (df.any (fun c => c.1 == "ID")) && (df.any (fun c => c.1 == "mixed_type_col")) then
    .ok (df.filter (fun c => !(c.1 == "ID" || c.1 == "mixed_type_col")))
  else
    .error "KeyError: labels not found in axis"

/-- Per-cell effect of `StripObjectColumns.transform` (features.py lines
16-20) at this abstraction: stripping surrounding whitespace from a string
changes neither whether it parses as a float nor the parsed value, and a
missing cell in an object column becomes the text of NaN, which
`safe_convert` also sends to missing; so every constructor is preserved. -/
def stripCell : RawCell → RawCell
  | .num q => .num q
  | .strNum q => .strNum q
  | .strBad => .strBad
  | .missing => .missing

/-- Stage 2, `StripObjectColumns.transform`. -/
def stripObjects (df : RawDf) : RawDf :=
  df.map (fun c => (c.1, c.2.map stripCell))

/-- Stage 3, `SafeRoundToInt.transform` (features.py lines 25-35): apply
`safe_convert` to every cell of every column. -/
def safeRoundToInt (df : RawDf) : NumDf :=
  df.map (fun c => (c.1, c.2.map safeConvert))

/-- `x in range(lo, hi)` for a float `x`: true iff `x` is an integer with
`lo ≤ x < hi` (Python `range.__contains__` compares numerically; NaN is
never a member). -/
def inIntRange (lo hi : ℤ) (q : ℚ) : Bool :=
  decide (q.den = 1 ∧ lo ≤ q.num ∧ q.num < hi)

/-- `x in [0, 1]` for a float `x` (list membership by numeric equality). -/
def inBinary (q : ℚ) : Bool :=
  decide (q = 0 ∨ q = 1)

/-- The non-missing values of a column, in order. -/
def nonNull (col : Col) : List ℚ :=
  col.filterMap id

/-- Smallest value of maximal multiplicity in a list (`none` on an empty
list). This is `Series.mode()[0]` restricted to the listed values. -/
def mostFrequent (l : List ℚ) : Option ℚ :=
  match l with
  | [] => none
  | v :: _ =>
    some (l.foldl
      (fun b w =>
        if l.count b < l.count w then w
        else if l.count w = l.count b ∧ w < b then w else b) v)

/-- `df[col].mode()[0]` as used by `FixInvalidValues.transform`: the mode
of the whole column, NaN dropped, ties resolved to the smallest value.
`none` when the column has no non-missing value (then `[0]` raises). -/
def modeList (col : Col) : Option ℚ :=
  mostFrequent (nonNull col)

/-- The replacement rule a `FixInvalidValues` column uses for values
outside its domain: a fixed constant (`x if x in range(...) else 0`) or the
column's mode (`... else df[col].mode()[0]`). -/
inductive Repl where
  | const (q : ℚ)
  | mode

/-- One column update of `FixInvalidValues.transform`
(features.py lines 42-48): `df[col].apply(lambda x: x if x in dom else r)`.
The `else` branch is evaluated only on out-of-domain (or NaN) cells, so
`mode()[0]` of a column with no non-missing values raises only if such a
cell exists; the mode is taken over the unmodified column, since the
assignment replaces the column only after `apply` finishes. -/
def repairColumn (col : Col) (dom : ℚ → Bool) (r : Repl) : Except String Col :=
  match r with
  | .const c =>
    .ok (col.map (fun cell =>
      match cell with
      | some q => if dom q then some q else some c
      | none => some c))
  | .mode =>
    exceptMap (fun cell =>
      match cell with
      | some q =>
        if dom q then .ok (some q)
        else
          match modeList col with
          | some m => .ok (some m)
          | none => .error "IndexError: mode of a column with no valid values"
      | none =>
        match modeList col with
        | some m => .ok (some m)
        | none => .error "IndexError: mode of a column with no valid values") col

/-- A named column operation: read the column (KeyError when absent),
transform it, write it back. -/
abbrev ColOp := String × (Col → Except String Col)

/-- Run a sequence of column operations left to right, as the straight-line
statements of `FixInvalidValues.transform` and the loop of
`WinsorizeIQR.transform` do. -/
def applyOps (ops : List ColOp) (df : NumDf) : Except String NumDf :=
  match ops with
  | [] => .ok df
  | op :: rest =>
    match getCol df op.1 with
    | none => .error ("KeyError: " ++ op.1)
    | some col =>
      match op.2 col with
      | .error e => .error e
      | .ok newCol => applyOps rest (setCol df op.1 newCol)

/-- The eight categorical repairs of `FixInvalidValues.transform`
(features.py lines 42-48), in source order, each with its domain test and
its replacement rule. -/
def fixSpecs : List (String × (ℚ → Bool) × Repl) :=
  [("Reason for absence", inIntRange 0 29, .const 0),
   ("Month of absence", inIntRange 0 13, .const 0),
   ("Day of the week", inIntRange 2 7, .mode),
   ("Seasons", inIntRange 1 5, .mode),
   ("Education", inIntRange 1 5, .mode),
   ("Disciplinary failure", inBinary, .mode),
   ("Social drinker", inBinary, .mode),
   ("Social smoker", inBinary, .mode)]

/-- Stage 4, `FixInvalidValues.transform`. -/
def fixInvalidValues (df : NumDf) : Except String NumDf :=
  applyOps (fixSpecs.map (fun s => (s.1, fun col => repairColumn col s.2.1 s.2.2))) df

/-- Insert into a sorted list. -/
def insertSorted (q : ℚ) : List ℚ → List ℚ
  | [] => [q]
  | x :: xs => if q ≤ x then q :: x :: xs else x :: insertSorted q xs

/-- Sort ascending (insertion sort). -/
def sortQ (l : List ℚ) : List ℚ :=
  l.foldr insertSorted []

/-- `Series.quantile(p)` with the default linear interpolation: NaN values
are dropped, the sorted values are indexed at `h = p * (m - 1)` and linearly
interpolated between the two adjacent order statistics; `none` when the
column has no non-missing value. -/
def quantileQ (col : Col) (p : ℚ) : Option ℚ :=
  let v := sortQ (nonNull col)
  if v.length = 0 then none
  else
    let h : ℚ := p * ((v.length : ℚ) - 1)
    let i : ℕ := h.floor.toNat
    let lo := v.getD i 0
    let hi := v.getD (i + 1) lo
    some (lo + (h - (h.floor : ℚ)) * (hi - lo))

/-- One column of `WinsorizeIQR.transform` (features.py lines 62-66):
compute Q1, Q3, IQR on the column and clip to
`[Q1 - 1.5*IQR, Q3 + 1.5*IQR]`. `Series.clip` applies the lower bound then
the upper bound and leaves NaN cells as NaN; when the quantiles are NaN
(column with no valid values) the bounds are ignored and the column is
unchanged. -/
def winsorizeCol (col : Col) : Col :=
  match quantileQ col (1/4), quantileQ col (3/4) with
  | some q1, some q3 =>
    let iqr := q3 - q1
    let lo := q1 - 3/2 * iqr
    let hi := q3 + 3/2 * iqr
    col.map (fun cell => cell.map (fun q => min hi (max lo q)))
  | _, _ => col

/-- The fixed twelve-column list of `WinsorizeIQR.__init__`
(features.py lines 54-58). -/
def winsorizeColumns : List String :=
  ["Transportation expense", "Distance from Residence to Work", "Service time",
   "Age", "Work load Average/day", "Hit target", "Son", "Pet", "Weight",
   "Height", "Body mass index", "Absenteeism time in hours"]

/-- Stage 5, `WinsorizeIQR.transform`. -/
def winsorizeIQR (df : NumDf) : Except String NumDf :=
  applyOps (winsorizeColumns.map (fun n => (n, fun col => .ok (winsorizeCol col)))) df

/-- `Series.median()`: NaN dropped; middle value, or the average of the two
middle values; NaN (here `none`) on a column with no valid values. -/
def medianQ (col : Col) : Option ℚ :=
  let v := sortQ (nonNull col)
  let m := v.length
  if m = 0 then none
  else if m % 2 = 1 then some (v.getD (m / 2) 0)
  else some ((v.getD (m / 2 - 1) 0 + v.getD (m / 2) 0) / 2)

/-- One column of `FillNaWithMedian.transform` (features.py line 73):
`fillna` with the column's median; a column whose median is NaN (no valid
values) keeps its NaN cells. -/
def fillNaCol (col : Col) : Col :=
  match medianQ col with
  | none => col
  | some med => col.map (fun cell => match cell with
      | none => some med
      | some q => some q)

/-- Stage 6, `FillNaWithMedian.transform`. -/
def fillNaWithMedian (df : NumDf) : NumDf :=
  df.map (fun c => (c.1, fillNaCol c.2))

/-- One cell of `FinalIntConversion.transform` (features.py line 79):
`X.round(0).astype(int)`. numpy `round(0)` rounds half to even, and
`astype(int)` raises on NaN. -/
def finalIntCell : Option ℚ → Except String (Option ℚ)
  | none => .error "IntCastingNaNError: cannot convert NA to integer"
  | some q => .ok (some ((pyRound q : ℤ) : ℚ))

/-- Stage 7, `FinalIntConversion.transform`. -/
def finalIntConversion (df : NumDf) : Except String NumDf :=
  exceptMap (fun c => (exceptMap finalIntCell c.2).map (fun l => (c.1, l))) df

/-- The full seven-stage pipeline of `create_preprocessing_pipeline`
(features.py lines 82-91), in source order; any stage's exception aborts
the run. -/
def runPipeline (df : RawDf) : Except String NumDf :=
  match dropColumns df with
  | .error e => .error e
  | .ok d1 =>
    match fixInvalidValues (safeRoundToInt (stripObjects d1)) with
    | .error e => .error e
    | .ok d4 =>
      match winsorizeIQR d4 with
      | .error e => .error e
      | .ok d5 => finalIntConversion (fillNaWithMedian d5)

/-- Reading a processed (all-numeric) dataframe back as raw input: each
numeric cell is a numeric cell, each NaN a missing cell. This is the
round-trip through the processed CSV. -/
def numToRaw (df : NumDf) : RawDf :=
  df.map (fun c => (c.1, c.2.map (fun cell =>
    match cell with
    | some q => RawCell.num q
    | none => RawCell.missing)))

/-- The best-model tracking of `main` in modeling/train.py (lines 305-316):
starting from `best_score = float('inf')`, each evaluated `(name, test_rmse)`
pair replaces the current best exactly when its test RMSE is strictly
smaller. Since every actual RMSE is finite, the first pair always replaces
the initial infinity, modelled by the `none` start. Line 337 then persists
the tracked best as `best_model.joblib`. -/
def selectBest (results : List (String × ℚ)) : Option (String × ℚ) :=
  results.foldl
    (fun best r =>
      match best with
      | none => some r
      | some b => if r.2 < b.2 then some r else some b)
    none

/-- The 19-field request schema `AbsenteeismInput` of api.py (lines 57-77),
with the pydantic floats idealised as rationals. -/
structure PredInput where
  reason_for_absence : ℤ
  month_of_absence : ℤ
  day_of_the_week : ℤ
  seasons : ℤ
  transportation_expense : ℚ
  distance_from_residence_to_work : ℚ
  service_time : ℚ
  age : ℤ
  work_load_average_per_day : ℚ
  hit_target : ℤ
  disciplinary_failure : ℤ
  education : ℤ
  son : ℤ
  social_drinker : ℤ
  social_smoker : ℤ
  pet : ℤ
  weight : ℚ
  height : ℚ
  body_mass_index : ℚ

/-- The pydantic `Field` range constraints of `AbsenteeismInput`
(api.py lines 59-77): a record passes request validation iff all of them
hold. -/
def ValidInput (x : PredInput) : Prop :=
  0 ≤ x.reason_for_absence ∧ x.reason_for_absence ≤ 28 ∧
  0 ≤ x.month_of_absence ∧ x.month_of_absence ≤ 12 ∧
  2 ≤ x.day_of_the_week ∧ x.day_of_the_week ≤ 6 ∧
  1 ≤ x.seasons ∧ x.seasons ≤ 4 ∧
  0 ≤ x.transportation_expense ∧
  0 ≤ x.distance_from_residence_to_work ∧
  0 ≤ x.service_time ∧
  0 ≤ x.age ∧
  0 ≤ x.work_load_average_per_day ∧
  0 ≤ x.hit_target ∧ x.hit_target ≤ 100 ∧
  0 ≤ x.disciplinary_failure ∧ x.disciplinary_failure ≤ 1 ∧
  1 ≤ x.education ∧ x.education ≤ 4 ∧
  0 ≤ x.son ∧
  0 ≤ x.social_drinker ∧ x.social_drinker ≤ 1 ∧
  0 ≤ x.social_smoker ∧ x.social_smoker ≤ 1 ∧
  0 ≤ x.pet ∧
  0 ≤ x.weight ∧
  0 ≤ x.height ∧
  0 ≤ x.body_mass_index

instance (x : PredInput) : Decidable (ValidInput x) := by
  unfold ValidInput
  infer_instance

/-- Python's `round(x, 2)` idealised over the rationals: round half to even
at the second decimal. -/
def round2 (q : ℚ) : ℚ :=
  ((pyRound (q * 100) : ℤ) : ℚ) / 100

/-- The `/predict` endpoint body of api.py (lines 258-271), given the loaded
model as a function `M` from a batch of records to the model's raw
predictions (one `model.predict` call on the one-row dataframe built by
`input_to_dataframe`): take prediction index 0 (`IndexError` if the model
returned an empty array), clamp to zero with `max(0, ...)`, round to two
decimals. -/
def predictOne (M : List PredInput → List ℚ) (r : PredInput) : Except String ℚ :=
  match M [r] with
  | [] => .error "IndexError: index 0 is out of bounds"
  | p :: _ => .ok (round2 (max 0 p))

/-- The `/predict/batch` endpoint body of api.py (lines 282-302): one
`model.predict` call on the concatenated rows, `np.maximum(predictions, 0)`,
each rounded to two decimals; the returned `total` is the length of the
prediction list. -/
def predictBatch (M : List PredInput → List ℚ) (rs : List PredInput) :
    List ℚ × ℕ :=
  let ps := (M rs).map (fun p => round2 (max 0 p))
  (ps, ps.length)

/-- A processed dataset as `prepare_features` receives it: named columns and
rows of numeric values. -/
structure DataFrame where
  cols : List String
  rows : List (List ℚ)
deriving DecidableEq, Repr

/-- `DataFrame.drop_duplicates()` keeping the first occurrence of each row,
written with an accumulator of rows already seen. -/
def dedupAux (seen : List (List ℚ)) : List (List ℚ) → List (List ℚ)
  | [] => []
  | r :: rs => if r ∈ seen then dedupAux seen rs else r :: dedupAux (r :: seen) rs

/-- `df.drop_duplicates()` on the rows of a dataframe. -/
def dropDuplicates (rows : List (List ℚ)) : List (List ℚ) :=
  dedupAux [] rows

/-- `prepare_features` of modeling/train.py (lines 84-113), restricted to
the parts that produce data: raise `ValueError` when the target column is
absent, drop duplicate rows, then split into the feature rows (the target
entry removed from each row) and the target values. The categorical /
numeric column classification it also returns does not alter the data and
is omitted. -/
def prepareFeatures (df : DataFrame) (target : String) :
    Except String (List (List ℚ) × List ℚ) :=
  match df.cols.indexOf? target with
  | none => .error "ValueError: Target column not found in data"
  | some j =>
    let dd := dropDuplicates df.rows
    .ok (dd.map (fun r => r.eraseIdx j), dd.map (fun r => r.getD j 0))

/-- Shorthand for an integer-valued numeric cell. -/
def cq (k : ℤ) : Option ℚ := some ((k : ℤ) : ℚ)

/-- Shorthand for an integer-valued raw numeric cell. -/
def rq (k : ℤ) : RawCell := RawCell.num ((k : ℤ) : ℚ)

/-- A concrete stage-4 input: all eight categorical columns present, three
rows, one out-of-domain value 30 in `Reason for absence` whose most frequent
in-domain value is 7. -/
def D1 : NumDf :=
  [("Reason for absence", [cq 30, cq 7, cq 7]),
   ("Month of absence", [cq 1, cq 1, cq 1]),
   ("Day of the week", [cq 3, cq 3, cq 3]),
   ("Seasons", [cq 1, cq 1, cq 1]),
   ("Education", [cq 1, cq 1, cq 1]),
   ("Disciplinary failure", [cq 0, cq 0, cq 0]),
   ("Social drinker", [cq 0, cq 0, cq 0]),
   ("Social smoker", [cq 0, cq 0, cq 0])]

/-- What stage 4 actually produces on `D1`: the invalid 30 in
`Reason for absence` becomes 0. -/
def D1out : NumDf :=
  [("Reason for absence", [cq 0, cq 7, cq 7]),
   ("Month of absence", [cq 1, cq 1, cq 1]),
   ("Day of the week", [cq 3, cq 3, cq 3]),
   ("Seasons", [cq 1, cq 1, cq 1]),
   ("Education", [cq 1, cq 1, cq 1]),
   ("Disciplinary failure", [cq 0, cq 0, cq 0]),
   ("Social drinker", [cq 0, cq 0, cq 0]),
   ("Social smoker", [cq 0, cq 0, cq 0])]

/-- A concrete five-row raw dataset with the full 22-column schema. The
`Pet` column is `[0,0,0,3,9]`: at stage 5 its fences are
`Q1 = 0, Q3 = 3, IQR = 3`, so 9 is clipped to `3 + 4.5 = 7.5`, which stage 7
then rounds to 8. -/
def D : RawDf :=
  [("ID", [rq 1, rq 2, rq 3, rq 4, rq 5]),
   ("mixed_type_col",
    [RawCell.strBad, RawCell.strBad, RawCell.strBad, RawCell.strBad, RawCell.strBad]),
   ("Reason for absence", [rq 1, rq 1, rq 1, rq 1, rq 1]),
   ("Month of absence", [rq 1, rq 1, rq 1, rq 1, rq 1]),
   ("Day of the week", [rq 3, rq 3, rq 3, rq 3, rq 3]),
   ("Seasons", [rq 1, rq 1, rq 1, rq 1, rq 1]),
   ("Education", [rq 1, rq 1, rq 1, rq 1, rq 1]),
   ("Disciplinary failure", [rq 0, rq 0, rq 0, rq 0, rq 0]),
   ("Social drinker", [rq 0, rq 0, rq 0, rq 0, rq 0]),
   ("Social smoker", [rq 0, rq 0, rq 0, rq 0, rq 0]),
   ("Transportation expense", [rq 0, rq 0, rq 0, rq 0, rq 0]),
   ("Distance from Residence to Work", [rq 0, rq 0, rq 0, rq 0, rq 0]),
   ("Service time", [rq 0, rq 0, rq 0, rq 0, rq 0]),
   ("Age", [rq 0, rq 0, rq 0, rq 0, rq 0]),
   ("Work load Average/day", [rq 0, rq 0, rq 0, rq 0, rq 0]),
   ("Hit target", [rq 0, rq 0, rq 0, rq 0, rq 0]),
   ("Son", [rq 0, rq 0, rq 0, rq 0, rq 0]),
   ("Pet", [rq 0, rq 0, rq 0, rq 3, rq 9]),
   ("Weight", [rq 0, rq 0, rq 0, rq 0, rq 0]),
   ("Height", [rq 0, rq 0, rq 0, rq 0, rq 0]),
   ("Body mass index", [rq 0, rq 0, rq 0, rq 0, rq 0]),
   ("Absenteeism time in hours", [rq 0, rq 0, rq 0, rq 0, rq 0])]

/-- The pipeline output on `D`. -/
def Dout : NumDf :=
  [("Reason for absence", [cq 1, cq 1, cq 1, cq 1, cq 1]),
   ("Month of absence", [cq 1, cq 1, cq 1, cq 1, cq 1]),
   ("Day of the week", [cq 3, cq 3, cq 3, cq 3, cq 3]),
   ("Seasons", [cq 1, cq 1, cq 1, cq 1, cq 1]),
   ("Education", [cq 1, cq 1, cq 1, cq 1, cq 1]),
   ("Disciplinary failure", [cq 0, cq 0, cq 0, cq 0, cq 0]),
   ("Social drinker", [cq 0, cq 0, cq 0, cq 0, cq 0]),
   ("Social smoker", [cq 0, cq 0, cq 0, cq 0, cq 0]),
   ("Transportation expense", [cq 0, cq 0, cq 0, cq 0, cq 0]),
   ("Distance from Residence to Work", [cq 0, cq 0, cq 0, cq 0, cq 0]),
   ("Service time", [cq 0, cq 0, cq 0, cq 0, cq 0]),
   ("Age", [cq 0, cq 0, cq 0, cq 0, cq 0]),
   ("Work load Average/day", [cq 0, cq 0, cq 0, cq 0, cq 0]),
   ("Hit target", [cq 0, cq 0, cq 0, cq 0, cq 0]),
   ("Son", [cq 0, cq 0, cq 0, cq 0, cq 0]),
   ("Pet", [cq 0, cq 0, cq 0, cq 3, cq 8]),
   ("Weight", [cq 0, cq 0, cq 0, cq 0, cq 0]),
   ("Height", [cq 0, cq 0, cq 0, cq 0, cq 0]),
   ("Body mass index", [cq 0, cq 0, cq 0, cq 0, cq 0]),
   ("Absenteeism time in hours", [cq 0, cq 0, cq 0, cq 0, cq 0])]

/-- Spec-side description of the claim's cell classification for stage 3:
the value a cell "parses as a floating-point number" to, when it does. -/
def parsesAsFloat : RawCell → Option ℚ
  | .num q => some q
  | .strNum q => some q
  | .strBad => none
  | .missing => none

/-- Spec-side description of a pandas `mode()[0]` result over a column:
a non-missing value of maximal multiplicity, smallest among those. Such a
value is unique when it exists. -/
def IsPandasMode (col : Col) (m : ℚ) : Prop :=
  m ∈ nonNull col ∧
    ∀ w ∈ nonNull col,
      (nonNull col).count w ≤ (nonNull col).count m ∧
        ((nonNull col).count w = (nonNull col).count m → m ≤ w)

/-- The categorical columns and their declared domains, from the schema
table of the specification (spec section 3). -/
def categoricalDomains : List (String × (ℚ → Bool)) :=
  [("Reason for absence", inIntRange 0 29),
   ("Month of absence", inIntRange 0 13),
   ("Day of the week", inIntRange 2 7),
   ("Seasons", inIntRange 1 5),
   ("Education", inIntRange 1 5),
   ("Disciplinary failure", inBinary),
   ("Social drinker", inBinary),
   ("Social smoker", inBinary)]

/-- Spec-side replacement value of claim C1: the most frequent in-domain
value observed in the column (the claim's "mode"). -/
def specModeInDomain (col : Col) (dom : ℚ → Bool) : Option ℚ :=
  mostFrequent ((nonNull col).filter dom)

/-- Claim C1 as stated: stage 4 replaces every out-of-domain value of each
categorical column by that column's most frequent in-domain value, computed
once per column over the full dataset before substitution. -/
def claimC1 : Prop :=
  ∀ df df', fixInvalidValues df = .ok df' →
    ∀ name dom, (name, dom) ∈ categoricalDomains →
      ∀ colIn colOut, getCol df name = some colIn → getCol df' name = some colOut →
        ∀ i q, colIn.getD i none = some q →
          colOut.getD i none = (if dom q then some q else specModeInDomain colIn dom)

/-- Claim C2's per-column invariant: every value of the column lies within
the Tukey fences computed on that same column. -/
def withinOwnFences (col : Col) (q : ℚ) : Prop :=
  ∀ q1 q3, quantileQ col (1/4) = some q1 → quantileQ col (3/4) = some q3 →
    q1 - 3/2 * (q3 - q1) ≤ q ∧ q ≤ q3 + 3/2 * (q3 - q1)

/-- Claim C2 as stated: in every dataset produced by the pipeline, each of
the twelve winsorized columns satisfies the fences computed on the
processed column itself. -/
def claimC2 : Prop :=
  ∀ df out, runPipeline df = .ok out →
    ∀ name, name ∈ winsorizeColumns →
      ∀ col, getCol out name = some col →
        ∀ q : ℚ, some q ∈ col → withinOwnFences col q

/-- Claim C3 as stated: the pipeline is idempotent — re-running it on its
own output (read back from the processed CSV) succeeds and changes
nothing. -/
def claimC3 : Prop :=
  ∀ df out, runPipeline df = .ok out →
    runPipeline (numToRaw out) = .ok out

/-- Claim C4 as stated: stage 1 tolerates the absence of the columns it
removes, returning the dataset with whichever of them are present
removed. -/
def claimC4 : Prop :=
  ∀ df : RawDf,
    (getCol df "ID" = none ∨ getCol df "mixed_type_col" = none) →
    dropColumns df = .ok (df.filter (fun c => !(c.1 == "ID" || c.1 == "mixed_type_col")))

/-- A raw dataset missing `mixed_type_col`. -/
def D4 : RawDf :=
  [("ID", [rq 1]), ("Pet", [rq 2])]

/-- A stage-5 input holding all twelve winsorized columns, with
`Pet = [0,0,0,3,9]` (fences `[-4.5, 7.5]`). -/
def DW : NumDf :=
  [("Transportation expense", [cq 0, cq 0, cq 0, cq 0, cq 0]),
   ("Distance from Residence to Work", [cq 0, cq 0, cq 0, cq 0, cq 0]),
   ("Service time", [cq 0, cq 0, cq 0, cq 0, cq 0]),
   ("Age", [cq 0, cq 0, cq 0, cq 0, cq 0]),
   ("Work load Average/day", [cq 0, cq 0, cq 0, cq 0, cq 0]),
   ("Hit target", [cq 0, cq 0, cq 0, cq 0, cq 0]),
   ("Son", [cq 0, cq 0, cq 0, cq 0, cq 0]),
   ("Pet", [cq 0, cq 0, cq 0, cq 3, cq 9]),
   ("Weight", [cq 0, cq 0, cq 0, cq 0, cq 0]),
   ("Height", [cq 0, cq 0, cq 0, cq 0, cq 0]),
   ("Body mass index", [cq 0, cq 0, cq 0, cq 0, cq 0]),
   ("Absenteeism time in hours", [cq 0, cq 0, cq 0, cq 0, cq 0])]

/-- Stage 5 output on `DW`: 9 clipped to 15/2. -/
def DWout : NumDf :=
  [("Transportation expense", [cq 0, cq 0, cq 0, cq 0, cq 0]),
   ("Distance from Residence to Work", [cq 0, cq 0, cq 0, cq 0, cq 0]),
   ("Service time", [cq 0, cq 0, cq 0, cq 0, cq 0]),
   ("Age", [cq 0, cq 0, cq 0, cq 0, cq 0]),
   ("Work load Average/day", [cq 0, cq 0, cq 0, cq 0, cq 0]),
   ("Hit target", [cq 0, cq 0, cq 0, cq 0, cq 0]),
   ("Son", [cq 0, cq 0, cq 0, cq 0, cq 0]),
   ("Pet", [cq 0, cq 0, cq 0, cq 3, some (15/2)]),
   ("Weight", [cq 0, cq 0, cq 0, cq 0, cq 0]),
   ("Height", [cq 0, cq 0, cq 0, cq 0, cq 0]),
   ("Body mass index", [cq 0, cq 0, cq 0, cq 0, cq 0]),
   ("Absenteeism time in hours", [cq 0, cq 0, cq 0, cq 0, cq 0])]

/-- The documented example request of `AbsenteeismInput.Config`
(api.py lines 80-102). -/
def exampleInput : PredInput :=
  { reason_for_absence := 23, month_of_absence := 7, day_of_the_week := 3,
    seasons := 1, transportation_expense := 289,
    distance_from_residence_to_work := 36, service_time := 13, age := 33,
    work_load_average_per_day := 240, hit_target := 97,
    disciplinary_failure := 0, education := 1, son := 2, social_drinker := 1,
    social_smoker := 0, pet := 1, weight := 90, height := 172,
    body_mass_index := 30 }

/-- A second valid request record. -/
def exampleInput2 : PredInput :=
  { exampleInput with weight := 60, body_mass_index := 20 }

/-- A third valid request record. -/
def exampleInput3 : PredInput :=
  { exampleInput with age := 40, son := 0 }

/-- A concrete per-record model used to witness the service theorems:
predicts weight minus one hundred hours (negative on `exampleInput`). -/
def mW (x : PredInput) : ℚ := x.weight - 100

/-- The corresponding vectorized model: one prediction per row. -/
def MW (rs : List PredInput) : List ℚ := rs.map mW

/-- A processed dataset with a duplicated row, for the feature-preparation
witness. -/
def DF10 : DataFrame :=
  { cols := ["Age", "Absenteeism time in hours"],
    rows := [[1, 2], [1, 2], [3, 4]] }

theorem ratFloor_eq (q : ℚ) : (q.floor : ℤ) = ⌊q⌋ :=
  (Rat.floor_def' q).trans Rat.floor_def.symm

theorem pyRound_cases (q : ℚ) : pyRound q = ⌊q⌋ ∨ pyRound q = ⌊q⌋ + 1 := by
  unfold pyRound
  rw [ratFloor_eq]
  split_ifs <;> simp

theorem pyRound_nonneg (q : ℚ) (h : 0 ≤ q) : 0 ≤ pyRound q := by
  have hf : 0 ≤ ⌊q⌋ := Int.floor_nonneg.mpr h
  rcases pyRound_cases q with hc | hc <;> omega

theorem pyRound_nearest (q : ℚ) : |q - ((pyRound q : ℤ) : ℚ)| ≤ 1/2 := by
  have h0 : (0:ℚ) ≤ q - ⌊q⌋ := by
    have := Int.floor_le q; linarith
  have h1 : q - ⌊q⌋ < 1 := by
    have := Int.lt_floor_add_one q; linarith
  unfold pyRound
  rw [ratFloor_eq]
  split_ifs with ha hb hc
  · rw [abs_le]; constructor <;> linarith
  · rw [abs_le]; push_cast; constructor <;> linarith
  · have hm : q - ⌊q⌋ = 1/2 := le_antisymm (not_lt.mp hb) (not_lt.mp ha)
    rw [abs_le]; constructor <;> linarith
  · have hm : q - ⌊q⌋ = 1/2 := le_antisymm (not_lt.mp hb) (not_lt.mp ha)
    rw [abs_le]; push_cast; constructor <;> linarith

theorem pyRound_zero : pyRound 0 = 0 := by with_unfolding_all decide

theorem round2_nonneg (q : ℚ) (h : 0 ≤ q) : 0 ≤ round2 q := by
  unfold round2
  have h100 : 0 ≤ pyRound (q * 100) := pyRound_nonneg _ (by positivity)
  have : (0:ℚ) ≤ ((pyRound (q * 100) : ℤ) : ℚ) := by exact_mod_cast h100
  positivity

theorem round2_zero : round2 0 = 0 := by with_unfolding_all decide

theorem getCol_setCol_self {α : Type} (df : List (String × α)) (n : String) (c : α)
    (h : getCol df n ≠ none) : getCol (setCol df n c) n = some c := by
  induction df with
  | nil => simp [getCol] at h
  | cons a rest ih =>
    by_cases ha : a.1 = n
    · simp [getCol, setCol, ha]
    · simp only [getCol, setCol, beq_iff_eq, ha, if_false] at h ⊢
      exact ih h

theorem getCol_setCol_ne {α : Type} (df : List (String × α)) (n n' : String) (c : α)
    (h : n' ≠ n) : getCol (setCol df n c) n' = getCol df n' := by
  induction df with
  | nil => rfl
  | cons a rest ih =>
    by_cases ha : a.1 = n
    · simp only [getCol, setCol, beq_iff_eq, ha, if_true]
      rw [if_neg (by simpa using fun hx : n = n' => h hx.symm), ih]
      rw [if_neg (by simpa using fun hx : n = n' => h hx.symm)]
    · simp only [getCol, setCol, beq_iff_eq, ha, if_false]
      by_cases ha' : a.1 = n'
      · simp [ha']
      · simp [ha', ih]

theorem colNames_setCol {α : Type} (df : List (String × α)) (n : String) (c : α) :
    colNames (setCol df n c) = colNames df := by
  induction df with
  | nil => rfl
  | cons a rest ih =>
    by_cases ha : a.1 = n
    · simp only [colNames, setCol, List.map_cons] at ih ⊢
      rw [if_pos (by simpa using ha)]
      simp only [ha, ih]
    · simp only [colNames, setCol, List.map_cons] at ih ⊢
      rw [if_neg (by simpa using ha)]
      simp only [ih]

theorem applyOps_colNames (ops : List ColOp) :
    ∀ df df', applyOps ops df = .ok df' → colNames df' = colNames df := by
  induction ops with
  | nil =>
    intro df df' h
    simp only [applyOps, Except.ok.injEq] at h
    rw [← h]
  | cons op rest ih =>
    intro df df' h
    cases hg : getCol df op.1 with
    | none => simp only [applyOps, hg] at h; exact Except.noConfusion h
    | some col =>
      cases hr : op.2 col with
      | error e => simp only [applyOps, hg, hr] at h; exact Except.noConfusion h
      | ok newCol =>
        simp only [applyOps, hg, hr] at h
        rw [ih _ _ h, colNames_setCol]

theorem applyOps_getCol_not_mem (ops : List ColOp) :
    ∀ df df' n, applyOps ops df = .ok df' → (∀ op ∈ ops, n ≠ op.1) →
      getCol df' n = getCol df n := by
  induction ops with
  | nil =>
    intro df df' n h _
    simp only [applyOps, Except.ok.injEq] at h
    rw [← h]
  | cons op rest ih =>
    intro df df' n h hn
    cases hg : getCol df op.1 with
    | none => simp only [applyOps, hg] at h; exact Except.noConfusion h
    | some col =>
      cases hr : op.2 col with
      | error e => simp only [applyOps, hg, hr] at h; exact Except.noConfusion h
      | ok newCol =>
        simp only [applyOps, hg, hr] at h
        have h1 := ih _ _ n h (fun o ho => hn o (List.mem_cons_of_mem _ ho))
        rw [h1, getCol_setCol_ne _ _ _ _ (hn op (List.mem_cons_self _ _))]

theorem applyOps_spec (ops : List ColOp) :
    ∀ df df', applyOps ops df = .ok df' →
      (ops.map (fun op => op.1)).Nodup →
      ∀ op ∈ ops, ∃ cIn cOut, getCol df op.1 = some cIn ∧ op.2 cIn = .ok cOut ∧
        getCol df' op.1 = some cOut := by
  induction ops with
  | nil =>
    intro df df' _ _ op hop
    cases hop
  | cons op0 rest ih =>
    intro df df' h hnd op hop
    cases hg : getCol df op0.1 with
    | none => simp only [applyOps, hg] at h; exact Except.noConfusion h
    | some col =>
      cases hr : op0.2 col with
      | error e => simp only [applyOps, hg, hr] at h; exact Except.noConfusion h
      | ok newCol =>
        simp only [applyOps, hg, hr] at h
        rw [List.map_cons, List.nodup_cons] at hnd
        obtain ⟨hni, hnd'⟩ := hnd
        rcases List.mem_cons.mp hop with rfl | hmem
        · refine ⟨col, newCol, hg, hr, ?_⟩
          have hset : getCol (setCol df op.1 newCol) op.1 = some newCol :=
            getCol_setCol_self _ _ _ (by rw [hg]; exact Option.some_ne_none _)
          have hrest : getCol df' op.1 = getCol (setCol df op.1 newCol) op.1 := by
            refine applyOps_getCol_not_mem rest _ _ _ h ?_
            intro o ho hfalse
            exact hni (hfalse ▸ List.mem_map_of_mem _ ho)
          rw [hrest, hset]
        · have hne : op.1 ≠ op0.1 := by
            intro hfalse
            exact hni (hfalse ▸ List.mem_map_of_mem _ hmem)
          obtain ⟨cIn, cOut, h1, h2, h3⟩ := ih _ _ h hnd' op hmem
          refine ⟨cIn, cOut, ?_, h2, h3⟩
          rw [getCol_setCol_ne _ _ _ _ hne] at h1
          exact h1

theorem exceptMap_ok {α β : Type} (f : α → Except String β) :
    ∀ (l : List α) (l' : List β), exceptMap f l = .ok l' →
      l'.length = l.length ∧
      ∀ i (da : α) (db : β), i < l.length →
        f (l.getD i da) = .ok (l'.getD i db) := by
  intro l
  induction l with
  | nil =>
    intro l' h
    simp only [exceptMap, Except.ok.injEq] at h
    subst h
    exact ⟨rfl, fun i _ _ hi => absurd hi (Nat.not_lt_zero i)⟩
  | cons a t ih =>
    intro l' h
    cases hfa : f a with
    | error e => simp only [exceptMap, hfa] at h; exact Except.noConfusion h
    | ok b =>
      cases ht : exceptMap f t with
      | error e => simp only [exceptMap, hfa, ht] at h; exact Except.noConfusion h
      | ok t' =>
        simp only [exceptMap, hfa, ht, Except.ok.injEq] at h
        subst h
        obtain ⟨hlen, hpt⟩ := ih t' ht
        refine ⟨by simp [hlen], ?_⟩
        intro i da db hi
        cases i with
        | zero => simpa using hfa
        | succ j =>
          simp only [List.getD_cons_succ]
          exact hpt j da db (Nat.lt_of_succ_lt_succ hi)

theorem exceptMap_mem {α β : Type} (f : α → Except String β) :
    ∀ (l : List α) (l' : List β), exceptMap f l = .ok l' →
      ∀ b ∈ l', ∃ a ∈ l, f a = .ok b := by
  intro l
  induction l with
  | nil =>
    intro l' h b hb
    simp only [exceptMap, Except.ok.injEq] at h
    subst h
    cases hb
  | cons a t ih =>
    intro l' h b hb
    cases hfa : f a with
    | error e => simp only [exceptMap, hfa] at h; exact Except.noConfusion h
    | ok b0 =>
      cases ht : exceptMap f t with
      | error e => simp only [exceptMap, hfa, ht] at h; exact Except.noConfusion h
      | ok t' =>
        simp only [exceptMap, hfa, ht, Except.ok.injEq] at h
        subst h
        rcases List.mem_cons.mp hb with rfl | hmem
        · exact ⟨a, List.mem_cons_self _ _, hfa⟩
        · obtain ⟨x, hx, hfx⟩ := ih t' ht b hmem
          exact ⟨x, List.mem_cons_of_mem _ hx, hfx⟩

theorem mostFrequent_fold (l : List ℚ) :
    ∀ (xs : List ℚ) (b : ℚ), b ∈ l → (∀ x ∈ xs, x ∈ l) →
      ∃ r, xs.foldl
          (fun b w =>
            if l.count b < l.count w then w
            else if l.count w = l.count b ∧ w < b then w else b) b = r ∧
        r ∈ l ∧
        (l.count b ≤ l.count r ∧ (l.count b = l.count r → r ≤ b)) ∧
        (∀ x ∈ xs, l.count x ≤ l.count r ∧ (l.count x = l.count r → r ≤ x)) := by
  intro xs
  induction xs with
  | nil =>
    intro b hb _
    exact ⟨b, rfl, hb, ⟨le_refl _, fun _ => le_refl _⟩, by simp⟩
  | cons x xs ih =>
    intro b hb hxs
    have hx : x ∈ l := hxs x (List.mem_cons_self _ _)
    have hxs' : ∀ y ∈ xs, y ∈ l := fun y hy => hxs y (List.mem_cons_of_mem _ hy)
    by_cases h1 : l.count b < l.count x
    · obtain ⟨r, hr, hrmem, hrb, hrxs⟩ := ih x hx hxs'
      refine ⟨r, ?_, hrmem, ?_, ?_⟩
      · rw [List.foldl_cons]
        simpa [h1] using hr
      · refine ⟨le_trans (le_of_lt h1) hrb.1, fun he => ?_⟩
        exact absurd (lt_of_lt_of_le h1 hrb.1) (by rw [he]; exact lt_irrefl _)
      · intro y hy
        rcases List.mem_cons.mp hy with rfl | hmem
        · exact hrb
        · exact hrxs y hmem
    · by_cases h2 : l.count x = l.count b ∧ x < b
      · obtain ⟨r, hr, hrmem, hrb, hrxs⟩ := ih x hx hxs'
        refine ⟨r, ?_, hrmem, ?_, ?_⟩
        · rw [List.foldl_cons]
          simpa [h1, h2] using hr
        · refine ⟨h2.1 ▸ hrb.1, fun he => ?_⟩
          exact le_trans (hrb.2 (h2.1.trans he)) (le_of_lt h2.2)
        · intro y hy
          rcases List.mem_cons.mp hy with rfl | hmem
          · exact hrb
          · exact hrxs y hmem
      · obtain ⟨r, hr, hrmem, hrb, hrxs⟩ := ih b hb hxs'
        refine ⟨r, ?_, hrmem, hrb, ?_⟩
        · rw [List.foldl_cons]
          simpa [h1, h2] using hr
        · intro y hy
          rcases List.mem_cons.mp hy with rfl | hmem
          · have hxb : l.count y ≤ l.count b := not_lt.mp h1
            refine ⟨le_trans hxb hrb.1, fun he => ?_⟩
            have hrcb : l.count r ≤ l.count b := he ▸ hxb
            have hbr : l.count b = l.count r := le_antisymm hrb.1 hrcb
            have hybeq : l.count y = l.count b := he.trans hbr.symm
            have hby : b ≤ y := not_lt.mp (fun hlt => h2 ⟨hybeq, hlt⟩)
            exact le_trans (hrb.2 hbr) hby
          · exact hrxs y hmem

theorem mostFrequent_spec (l : List ℚ) (v : ℚ) (h : mostFrequent l = some v) :
    v ∈ l ∧ ∀ w ∈ l, l.count w ≤ l.count v ∧ (l.count w = l.count v → v ≤ w) := by
  cases l with
  | nil => cases h
  | cons a t =>
    simp only [mostFrequent, Option.some.injEq] at h
    obtain ⟨r, hr, hrmem, _, hrall⟩ :=
      mostFrequent_fold (a :: t) (a :: t) a (List.mem_cons_self _ _) (fun x hx => hx)
    rw [hr] at h
    subst h
    exact ⟨hrmem, hrall⟩

theorem modeList_isPandasMode (col : Col) (m : ℚ) (h : modeList col = some m) :
    IsPandasMode col m := by
  obtain ⟨hmem, hall⟩ := mostFrequent_spec (nonNull col) m h
  exact ⟨hmem, hall⟩

theorem getD_map {α β : Type} (f : α → β) :
    ∀ (l : List α) (i : ℕ) (da : α) (db : β), i < l.length →
      (l.map f).getD i db = f (l.getD i da) := by
  intro l
  induction l with
  | nil => intro i _ _ hi; cases hi
  | cons a t ih =>
    intro i da db hi
    cases i with
    | zero => rfl
    | succ j => simpa using ih j da db (Nat.lt_of_succ_lt_succ hi)

/-- C1 counterexample: on the dataset `D1`, whose `Reason for absence`
column is `[30, 7, 7]`, the most frequent in-domain value is 7, but stage 4
replaces the out-of-domain 30 by the constant 0, so the claim as stated is
false. -/
theorem c1_counterexample : ¬ claimC1 := by
  intro h
  have h0 := h D1 D1out (by decide) "Reason for absence" (inIntRange 0 29)
      (by unfold categoricalDomains; exact List.mem_cons_self _ _)
      [cq 30, cq 7, cq 7] [cq 0, cq 7, cq 7] (by decide) (by decide)
      0 30 (by decide)
  revert h0
  decide

/-- C1 (amended): stage 4 keeps every in-domain value of each categorical
column; it replaces every out-of-domain or missing value of
`Reason for absence` and `Month of absence` by the constant 0, and of the
other six categorical columns by the column's pandas mode — the most
frequent value among all non-missing values of the pre-substitution column,
out-of-domain values included, smallest on ties — computed once per column
over the full dataset before substitution. -/
theorem c1_fix_replacements :
    ∀ df df', fixInvalidValues df = .ok df' →
    ∀ name dom r, (name, dom, r) ∈ fixSpecs →
    ∃ colIn colOut, getCol df name = some colIn ∧ getCol df' name = some colOut ∧
      colOut.length = colIn.length ∧
      ∀ i, i < colIn.length →
        ((∀ q, colIn.getD i none = some q → dom q = true →
            colOut.getD i none = some q) ∧
         ((colIn.getD i none = none ∨
            ∃ q, colIn.getD i none = some q ∧ dom q = false) →
           match r with
           | .const c => colOut.getD i none = some c
           | .mode => ∃ m, IsPandasMode colIn m ∧ colOut.getD i none = some m)) := by
  intro df df' h name dom r hmem
  have hop := List.mem_map_of_mem
    (fun s : String × (ℚ → Bool) × Repl => (s.1, fun col => repairColumn col s.2.1 s.2.2)) hmem
  simp only [fixInvalidValues] at h
  have hnd : (((fixSpecs.map
      (fun s => (s.1, fun col => repairColumn col s.2.1 s.2.2))).map
        (fun op : ColOp => op.1))).Nodup := by
    rw [List.map_map]
    decide
  obtain ⟨cIn, cOut, h1, h2, h3⟩ := applyOps_spec _ _ _ h hnd _ hop
  refine ⟨cIn, cOut, h1, h3, ?_⟩
  simp only at h2
  cases r with
  | const c =>
    simp only [repairColumn, Except.ok.injEq] at h2
    subst h2
    refine ⟨by simp, ?_⟩
    intro i hi
    constructor
    · intro q hq hdom
      rw [getD_map _ _ _ none _ hi, hq]
      simp [hdom]
    · intro hbad
      rcases hbad with hnone | ⟨q, hq, hdom⟩
      · rw [getD_map _ _ _ none _ hi, hnone]
      · rw [getD_map _ _ _ none _ hi, hq]
        simp [hdom]
  | mode =>
    simp only [repairColumn] at h2
    obtain ⟨hlen, hpt⟩ := exceptMap_ok _ _ _ h2
    refine ⟨hlen, ?_⟩
    intro i hi
    have hcell := hpt i none none hi
    constructor
    · intro q hq hdom
      rw [hq] at hcell
      simp only [hdom, if_true] at hcell
      exact (Except.ok.inj hcell).symm
    · intro hbad
      rcases hbad with hnone | ⟨q, hq, hdom⟩
      · rw [hnone] at hcell
        cases hm : modeList cIn with
        | none => rw [hm] at hcell; cases hcell
        | some m =>
          rw [hm] at hcell
          exact ⟨m, modeList_isPandasMode _ _ hm, (Except.ok.inj hcell).symm⟩
      · rw [hq] at hcell
        simp only [hdom, if_false, Bool.false_eq_true] at hcell
        cases hm : modeList cIn with
        | none => rw [hm] at hcell; cases hcell
        | some m =>
          rw [hm] at hcell
          exact ⟨m, modeList_isPandasMode _ _ hm, (Except.ok.inj hcell).symm⟩

/-- Witness for the amended C1 theorem at the concrete dataset `D1` and the
column `Reason for absence`. -/
theorem c1_fix_replacements_witness :
    ∃ colIn colOut, getCol D1 "Reason for absence" = some colIn ∧
      getCol D1out "Reason for absence" = some colOut ∧
      colOut.length = colIn.length ∧
      ∀ i, i < colIn.length →
        ((∀ q, colIn.getD i none = some q → inIntRange 0 29 q = true →
            colOut.getD i none = some q) ∧
         ((colIn.getD i none = none ∨
            ∃ q, colIn.getD i none = some q ∧ inIntRange 0 29 q = false) →
           match Repl.const 0 with
           | .const c => colOut.getD i none = some c
           | .mode => ∃ m, IsPandasMode colIn m ∧ colOut.getD i none = some m)) :=
  c1_fix_replacements D1 D1out (by decide) "Reason for absence" (inIntRange 0 29)
    (.const 0) (by unfold fixSpecs; exact List.mem_cons_self _ _)

theorem winsorizeCol_bounds (col : Col) (q1 q3 : ℚ)
    (h1 : quantileQ col (1/4) = some q1) (h3 : quantileQ col (3/4) = some q3)
    (hle : q1 ≤ q3) :
    ∀ q : ℚ, some q ∈ winsorizeCol col →
      q1 - 3/2 * (q3 - q1) ≤ q ∧ q ≤ q3 + 3/2 * (q3 - q1) := by
  intro q hq
  have hiqr : (0:ℚ) ≤ 3/2 * (q3 - q1) := mul_nonneg (by norm_num) (by linarith)
  have hlohi : q1 - 3/2 * (q3 - q1) ≤ q3 + 3/2 * (q3 - q1) := by linarith
  simp only [winsorizeCol, h1, h3, List.mem_map] at hq
  obtain ⟨cell, hcell, hmap⟩ := hq
  cases cell with
  | none => cases hmap
  | some q0 =>
    simp only [Option.map_some', Option.some.injEq] at hmap
    subst hmap
    constructor
    · exact le_min hlohi (le_max_left _ _)
    · exact min_le_left _ _

/-- C2 counterexample: push the dataset `D` through the full pipeline. The
processed `Pet` column is `[0,0,0,3,8]` (9 was clipped to 7.5 at stage 5 and
rounded to 8 at stage 7); the fences recomputed on this processed column are
`[-4.5, 7.5]`, and 8 falls outside them, so the claim as stated is false. -/
theorem c2_counterexample : ¬ claimC2 := by
  intro h
  have h0 := h D Dout (by with_unfolding_all decide) "Pet" (by decide)
      [cq 0, cq 0, cq 0, cq 3, cq 8] (by decide) 8 (by decide)
  have h2 := (h0 0 3 (by with_unfolding_all decide) (by with_unfolding_all decide)).2
  revert h2
  with_unfolding_all decide

/-- C2 (amended): at the end of stage 5 every non-missing value of each of
the twelve winsorized columns lies within `[Q1 - 1.5*IQR, Q3 + 1.5*IQR]`
computed on the column as stage 5 received it (before clipping). Stage 7's
final rounding can move a clipped value past the fences recomputed on the
processed column, so the invariant holds for the stage-5 input fences, not
the processed-column fences. -/
theorem c2_winsorize_bounds :
    ∀ df df', winsorizeIQR df = .ok df' →
    ∀ name, name ∈ winsorizeColumns →
    ∀ colIn, getCol df name = some colIn →
    ∀ q1 q3, quantileQ colIn (1/4) = some q1 → quantileQ colIn (3/4) = some q3 →
      q1 ≤ q3 →
      ∃ colOut, getCol df' name = some colOut ∧ colOut = winsorizeCol colIn ∧
        ∀ q : ℚ, some q ∈ colOut →
          q1 - 3/2 * (q3 - q1) ≤ q ∧ q ≤ q3 + 3/2 * (q3 - q1) := by
  intro df df' h name hname colIn hg q1 q3 h1 h3 hle
  simp only [winsorizeIQR] at h
  have hop := List.mem_map_of_mem
    (fun n => ((n, fun col => Except.ok (winsorizeCol col)) : ColOp)) hname
  have hnd : ((winsorizeColumns.map
      (fun n => ((n, fun col => Except.ok (winsorizeCol col)) : ColOp))).map
        (fun op : ColOp => op.1)).Nodup := by
    rw [List.map_map]
    decide
  obtain ⟨cIn, cOut, hg', hok, hget⟩ := applyOps_spec _ _ _ h hnd _ hop
  simp only at hg' hok hget
  rw [hg] at hg'
  obtain rfl := Option.some.inj hg'
  have hco : cOut = winsorizeCol colIn := (Except.ok.inj hok).symm
  subst hco
  exact ⟨winsorizeCol colIn, hget, rfl, winsorizeCol_bounds colIn q1 q3 h1 h3 hle⟩

/-- Witness for the amended C2 theorem at the concrete stage-5 input `DW`
(the `Pet` column `[0,0,0,3,9]` has fences `[-4.5, 7.5]`). -/
theorem c2_winsorize_bounds_witness :
    ∃ colOut, getCol DWout "Pet" = some colOut ∧
      colOut = winsorizeCol [cq 0, cq 0, cq 0, cq 3, cq 9] ∧
      ∀ q : ℚ, some q ∈ colOut →
        (0:ℚ) - 3/2 * (3 - 0) ≤ q ∧ q ≤ 3 + 3/2 * (3 - 0) :=
  c2_winsorize_bounds DW DWout (by with_unfolding_all decide) "Pet" (by decide)
    [cq 0, cq 0, cq 0, cq 3, cq 9] (by decide) 0 3 (by with_unfolding_all decide)
    (by with_unfolding_all decide) (by norm_num)

theorem exceptMap_fst {α β : Type} (p : α → String) (p' : β → String)
    (g : α → Except String β) (hpres : ∀ c r, g c = .ok r → p' r = p c) :
    ∀ df df', exceptMap g df = .ok df' → df'.map p' = df.map p := by
  intro df
  induction df with
  | nil =>
    intro df' h
    simp only [exceptMap, Except.ok.injEq] at h
    subst h
    rfl
  | cons a t ih =>
    intro df' h
    cases hga : g a with
    | error e => simp only [exceptMap, hga] at h; exact Except.noConfusion h
    | ok b =>
      cases ht : exceptMap g t with
      | error e => simp only [exceptMap, hga, ht] at h; exact Except.noConfusion h
      | ok t' =>
        simp only [exceptMap, hga, ht, Except.ok.injEq] at h
        subst h
        simp only [List.map_cons, hpres a b hga, ih t' ht]

theorem finalInt_colNames (df df' : NumDf) (h : finalIntConversion df = .ok df') :
    colNames df' = colNames df := by
  refine exceptMap_fst (fun c => c.1) (fun c => c.1) _ ?_ df df' h
  intro c r hcr
  cases hin : exceptMap finalIntCell c.2 with
  | error e =>
    rw [hin] at hcr
    exact Except.noConfusion hcr
  | ok l =>
    rw [hin] at hcr
    simp only [Except.map] at hcr
    cases hcr
    rfl

theorem colNames_stripObjects (df : RawDf) :
    colNames (stripObjects df) = colNames df := by
  induction df with
  | nil => rfl
  | cons a t ih => simp [stripObjects, colNames]

theorem colNames_safeRound (df : RawDf) :
    colNames (safeRoundToInt df) = colNames df := by
  induction df with
  | nil => rfl
  | cons a t ih => simp [safeRoundToInt, colNames]

theorem colNames_fillNa (df : NumDf) :
    colNames (fillNaWithMedian df) = colNames df := by
  induction df with
  | nil => rfl
  | cons a t ih => simp [fillNaWithMedian, colNames]

theorem colNames_numToRaw (df : NumDf) :
    colNames (numToRaw df) = colNames df := by
  induction df with
  | nil => rfl
  | cons a t ih => simp [numToRaw, colNames]

theorem any_fst_eq {α : Type} (df : List (String × α)) (n : String) :
    (df.any (fun c => c.1 == n)) = true ↔ n ∈ colNames df := by
  induction df with
  | nil => simp [colNames]
  | cons a t ih =>
    simp only [List.any_cons, colNames, List.map_cons, List.mem_cons, Bool.or_eq_true,
      beq_iff_eq, ih, colNames]
    constructor
    · rintro (rfl | hm)
      · exact Or.inl rfl
      · exact Or.inr hm
    · rintro (rfl | hm)
      · exact Or.inl rfl
      · exact Or.inr hm

theorem dropColumns_no_ID (df d1 : RawDf) (h : dropColumns df = .ok d1) :
    "ID" ∉ colNames d1 := by
  unfold dropColumns at h
  split at h
  · simp only [Except.ok.injEq] at h
    subst h
    intro hmem
    simp only [colNames, List.mem_map] at hmem
    obtain ⟨c, hc, hfst⟩ := hmem
    have hpred := (List.mem_filter.mp hc).2
    simp only [Bool.not_eq_true', Bool.or_eq_false_iff, beq_eq_false_iff_ne] at hpred
    exact hpred.1 hfst
  · exact Except.noConfusion h

theorem runPipeline_no_ID (df : RawDf) (out : NumDf) (h : runPipeline df = .ok out) :
    "ID" ∉ colNames out := by
  unfold runPipeline at h
  cases h1 : dropColumns df with
  | error e => simp only [h1] at h; exact Except.noConfusion h
  | ok d1 =>
    simp only [h1] at h
    cases h4 : fixInvalidValues (safeRoundToInt (stripObjects d1)) with
    | error e => simp only [h4] at h; exact Except.noConfusion h
    | ok d4 =>
      simp only [h4] at h
      cases h5 : winsorizeIQR d4 with
      | error e => simp only [h5] at h; exact Except.noConfusion h
      | ok d5 =>
        simp only [h5] at h
        have e7 : colNames out = colNames (fillNaWithMedian d5) :=
          finalInt_colNames _ _ h
        have e6 : colNames (fillNaWithMedian d5) = colNames d5 := colNames_fillNa d5
        have e5 : colNames d5 = colNames d4 := by
          simp only [winsorizeIQR] at h5
          exact applyOps_colNames _ _ _ h5
        have e4 : colNames d4 = colNames (safeRoundToInt (stripObjects d1)) := by
          simp only [fixInvalidValues] at h4
          exact applyOps_colNames _ _ _ h4
        have e3 : colNames (safeRoundToInt (stripObjects d1)) = colNames d1 :=
          (colNames_safeRound _).trans (colNames_stripObjects _)
        rw [e7, e6, e5, e4, e3]
        exact dropColumns_no_ID df d1 h1

/-- C3 counterexample: the pipeline run on `D` succeeds, but running it
again on its own output fails (stage 1 must drop `ID` and
`mixed_type_col`, which the processed dataset no longer has), so the claim
as stated is false. -/
theorem c3_counterexample : ¬ claimC3 := by
  intro h
  have h0 := h D Dout (by with_unfolding_all decide)
  revert h0
  with_unfolding_all decide

/-- C3 (amended): the pipeline is not idempotent. A second run on any
dataset it produced fails at stage 1 with a `KeyError`: the processed
dataset no longer has the `ID` column (nor `mixed_type_col`), and pandas
`drop` with its default `errors='raise'` raises on the missing labels. -/
theorem c3_second_run_fails :
    ∀ df out, runPipeline df = .ok out →
      ∃ e, runPipeline (numToRaw out) = .error e := by
  intro df out h
  have hID : "ID" ∉ colNames out := runPipeline_no_ID df out h
  have hany : ((numToRaw out).any (fun c => c.1 == "ID")) = false := by
    rw [Bool.eq_false_iff]
    intro htrue
    exact hID (by rw [← colNames_numToRaw]; exact (any_fst_eq _ _).mp htrue)
  have hdrop : dropColumns (numToRaw out) = .error "KeyError: labels not found in axis" := by
    unfold dropColumns
    rw [hany, Bool.false_and, if_neg (by simp)]
  refine ⟨"KeyError: labels not found in axis", ?_⟩
  unfold runPipeline
  rw [hdrop]

/-- Witness for the amended C3 theorem: the second run on `D`'s output
fails. -/
theorem c3_second_run_fails_witness :
    ∃ e, runPipeline (numToRaw Dout) = .error e :=
  c3_second_run_fails D Dout (by with_unfolding_all decide)

theorem getCol_isSome_iff {α : Type} (df : List (String × α)) (n : String) :
    getCol df n ≠ none ↔ n ∈ colNames df := by
  induction df with
  | nil => simp [getCol, colNames]
  | cons a t ih =>
    by_cases ha : a.1 = n
    · simp [getCol, colNames, ha]
    · have hbeq : (a.1 == n) = false := by simp [ha]
      simp only [getCol, hbeq, Bool.false_eq_true, if_false]
      rw [ih]
      simp only [colNames, List.map_cons, List.mem_cons]
      exact ⟨fun hm => Or.inr hm, fun h => h.resolve_left fun he => ha he.symm⟩

/-- C4 counterexample: on the dataset `D4`, which lacks `mixed_type_col`,
stage 1 raises a `KeyError` instead of tolerating the absence, so the claim
as stated is false. -/
theorem c4_counterexample : ¬ claimC4 := by
  intro h
  have h0 := h D4 (Or.inr (by decide))
  revert h0
  decide

/-- C4 (amended): stage 1 raises a `KeyError` whenever the row identifier
column or the mixed-type column is absent (pandas `drop` defaults to
`errors='raise'`); only when both are present does it return the dataset
with the two columns removed. -/
theorem c4_drop_strict :
    ∀ df : RawDf,
      (getCol df "ID" ≠ none → getCol df "mixed_type_col" ≠ none →
        dropColumns df =
          .ok (df.filter (fun c => !(c.1 == "ID" || c.1 == "mixed_type_col")))) ∧
      ((getCol df "ID" = none ∨ getCol df "mixed_type_col" = none) →
        ∃ e, dropColumns df = .error e) := by
  intro df
  constructor
  · intro hID hmx
    have hID' : (df.any (fun c => c.1 == "ID")) = true :=
      (any_fst_eq _ _).mpr ((getCol_isSome_iff _ _).mp hID)
    have hmx' : (df.any (fun c => c.1 == "mixed_type_col")) = true :=
      (any_fst_eq _ _).mpr ((getCol_isSome_iff _ _).mp hmx)
    unfold dropColumns
    rw [hID', hmx']
    simp
  · intro hor
    refine ⟨"KeyError: labels not found in axis", ?_⟩
    have hand : ((df.any (fun c => c.1 == "ID")) &&
        (df.any (fun c => c.1 == "mixed_type_col"))) = false := by
      rcases hor with hab | hab
      · have hfalse : (df.any (fun c => c.1 == "ID")) = false := by
          rw [Bool.eq_false_iff]
          intro ht
          exact absurd hab ((getCol_isSome_iff _ _).mpr ((any_fst_eq _ _).mp ht))
        rw [hfalse, Bool.false_and]
      · have hfalse : (df.any (fun c => c.1 == "mixed_type_col")) = false := by
          rw [Bool.eq_false_iff]
          intro ht
          exact absurd hab ((getCol_isSome_iff _ _).mpr ((any_fst_eq _ _).mp ht))
        rw [hfalse, Bool.and_false]
    unfold dropColumns
    rw [hand]
    simp

/-- Witness for the amended C4 theorem: on `D` (both columns present) stage
1 succeeds and removes them; on `D4` (missing `mixed_type_col`) it
raises. -/
theorem c4_drop_strict_witness :
    dropColumns D =
      .ok (D.filter (fun c => !(c.1 == "ID" || c.1 == "mixed_type_col"))) ∧
    ∃ e, dropColumns D4 = .error e :=
  ⟨(c4_drop_strict D).1 (by decide) (by decide),
   (c4_drop_strict D4).2 (Or.inr (by decide))⟩

/-- C5: stage 3 never raises — `safeConvert` is a total function — and on
every cell of every column it yields the parsed value rounded to the
nearest integer (ties to even, as Python's `round`) when the cell parses as
a float, and the missing marker otherwise; the rounding really is to a
nearest integer (within one half), and the spec's scenario holds: the raw
cell `"25.7"` becomes 26. -/
theorem c5_safe_round :
    (∀ df : RawDf, safeRoundToInt df =
      df.map (fun c => (c.1, c.2.map (fun cell =>
        (parsesAsFloat cell).map (fun q => ((pyRound q : ℤ) : ℚ)))))) ∧
    (∀ q : ℚ, |q - ((pyRound q : ℤ) : ℚ)| ≤ 1/2) ∧
    safeConvert (.strNum (257/10)) = some 26 := by
  refine ⟨?_, pyRound_nearest, ?_⟩
  · intro df
    have hfun : safeConvert = (fun cell =>
        (parsesAsFloat cell).map (fun q => ((pyRound q : ℤ) : ℚ))) := by
      funext cell
      cases cell <;> rfl
    unfold safeRoundToInt
    rw [hfun]
  · with_unfolding_all decide

/-- C6: every dataset the pipeline actually produces has no missing cell
and every cell is integer-valued — stage 6 fills remaining numeric NaN with
the column median, and stage 7's `astype(int)` raises on any NaN that
survives, so a produced dataset can contain none. -/
theorem c6_no_missing_all_int :
    ∀ df out, runPipeline df = .ok out →
      ∀ c ∈ out, ∀ cell ∈ c.2, ∃ n : ℤ, cell = some ((n : ℤ) : ℚ) := by
  intro df out h c hc cell hcell
  unfold runPipeline at h
  cases h1 : dropColumns df with
  | error e => simp only [h1] at h; exact Except.noConfusion h
  | ok d1 =>
    simp only [h1] at h
    cases h4 : fixInvalidValues (safeRoundToInt (stripObjects d1)) with
    | error e => simp only [h4] at h; exact Except.noConfusion h
    | ok d4 =>
      simp only [h4] at h
      cases h5 : winsorizeIQR d4 with
      | error e => simp only [h5] at h; exact Except.noConfusion h
      | ok d5 =>
        simp only [h5] at h
        obtain ⟨cIn, hcIn, hgc⟩ := exceptMap_mem _ _ _ h c hc
        cases hin : exceptMap finalIntCell cIn.2 with
        | error e => rw [hin] at hgc; exact Except.noConfusion hgc
        | ok l =>
          rw [hin] at hgc
          simp only [Except.map] at hgc
          cases hgc
          obtain ⟨x, _, hfx⟩ := exceptMap_mem _ _ _ hin cell hcell
          cases x with
          | none => exact Except.noConfusion hfx
          | some q => exact ⟨pyRound q, (Except.ok.inj hfx).symm⟩

/-- Witness for the C6 theorem: in the pipeline output on `D`, the clipped
and rounded `Pet` cell is a present integer value. -/
theorem c6_no_missing_all_int_witness :
    ∃ n : ℤ, cq 8 = some ((n : ℤ) : ℚ) :=
  c6_no_missing_all_int D Dout (by with_unfolding_all decide)
    ("Pet", [cq 0, cq 0, cq 0, cq 3, cq 8]) (by decide) (cq 8) (by decide)

theorem selectBest_go (l : List (String × ℚ)) (b : String × ℚ) :
    ∃ r, l.foldl
        (fun best r => match best with
          | none => some r
          | some b => if r.2 < b.2 then some r else some b) (some b) = some r ∧
      r.2 ≤ b.2 ∧ (∀ x ∈ l, r.2 ≤ x.2) ∧
      (r = b ∨ ∃ l₁ l₂, l = l₁ ++ r :: l₂ ∧ r.2 < b.2 ∧ ∀ x ∈ l₁, r.2 < x.2) := by
  induction l generalizing b with
  | nil => exact ⟨b, rfl, le_refl _, by simp, Or.inl rfl⟩
  | cons a t ih =>
    by_cases ha : a.2 < b.2
    · obtain ⟨r, hr, hrb, hrall, hsplit⟩ := ih a
      refine ⟨r, ?_, le_trans hrb (le_of_lt ha), ?_, ?_⟩
      · rw [List.foldl_cons]
        simpa [ha] using hr
      · intro x hx
        rcases List.mem_cons.mp hx with rfl | hm
        · exact hrb
        · exact hrall x hm
      · rcases hsplit with rfl | ⟨l₁, l₂, rfl, hlt, hpre⟩
        · exact Or.inr ⟨[], t, rfl, ha, by simp⟩
        · refine Or.inr ⟨a :: l₁, l₂, rfl, lt_trans hlt ha, ?_⟩
          intro x hx
          rcases List.mem_cons.mp hx with rfl | hm
          · exact hlt
          · exact hpre x hm
    · obtain ⟨r, hr, hrb, hrall, hsplit⟩ := ih b
      refine ⟨r, ?_, hrb, ?_, ?_⟩
      · rw [List.foldl_cons]
        simpa [ha] using hr
      · intro x hx
        rcases List.mem_cons.mp hx with rfl | hm
        · exact le_trans hrb (not_lt.mp ha)
        · exact hrall x hm
      · rcases hsplit with rfl | ⟨l₁, l₂, rfl, hlt, hpre⟩
        · exact Or.inl rfl
        · refine Or.inr ⟨a :: l₁, l₂, rfl, hlt, ?_⟩
          intro x hx
          rcases List.mem_cons.mp hx with rfl | hm
          · exact lt_of_lt_of_le hlt (not_lt.mp ha)
          · exact hpre x hm

/-- C7: on a non-empty evaluation list the training loop's best-model
tracking selects exactly the first result attaining the minimal held-out
RMSE: the selected pair minimises the RMSE over the whole list, and every
pair evaluated before it has strictly larger RMSE (so exact ties go to the
earlier model). -/
theorem c7_best_model (l : List (String × ℚ)) (h : l ≠ []) :
    ∃ pre best post, l = pre ++ best :: post ∧ selectBest l = some best ∧
      (∀ x ∈ l, best.2 ≤ x.2) ∧ ∀ x ∈ pre, best.2 < x.2 := by
  cases l with
  | nil => exact absurd rfl h
  | cons a t =>
    obtain ⟨r, hr, hrb, hrall, hsplit⟩ := selectBest_go t a
    have hsel : selectBest (a :: t) = some r := by
      simpa [selectBest, List.foldl_cons] using hr
    rcases hsplit with rfl | ⟨l₁, l₂, rfl, hlt, hpre⟩
    · refine ⟨[], r, t, rfl, hsel, ?_, by simp⟩
      intro x hx
      rcases List.mem_cons.mp hx with rfl | hm
      · exact le_refl _
      · exact hrall x hm
    · refine ⟨a :: l₁, r, l₂, rfl, hsel, ?_, ?_⟩
      · intro x hx
        rcases List.mem_cons.mp hx with rfl | hm
        · exact hrb
        · exact hrall x hm
      · intro x hx
        rcases List.mem_cons.mp hx with rfl | hm
        · exact hlt
        · exact hpre x hm

/-- Witness for the C7 theorem on a concrete result list with an exact tie:
the first of the two tied models is selected. -/
theorem c7_best_model_witness :
    ∃ pre best post,
      ([("RandomForest", (2:ℚ)), ("LightGBM", 2), ("CatBoost", 3)] :
          List (String × ℚ)) = pre ++ best :: post ∧
      selectBest [("RandomForest", 2), ("LightGBM", 2), ("CatBoost", 3)] = some best ∧
      (∀ x ∈ ([("RandomForest", (2:ℚ)), ("LightGBM", 2), ("CatBoost", 3)] :
          List (String × ℚ)), best.2 ≤ x.2) ∧
      ∀ x ∈ pre, best.2 < x.2 :=
  c7_best_model _ (by simp)

/-- C8: with the loaded model treated as a row-wise vectorized predictor
(one prediction per input row, as a fitted sklearn pipeline's `predict`
is), batch and single prediction agree on a one-record batch; a batch of
records yields exactly one prediction per record, in input order, each
non-negative, and the returned `total` equals the number of records. -/
theorem c8_batch_single :
    ∀ (M : List PredInput → List ℚ) (m : PredInput → ℚ),
      (∀ rs, M rs = rs.map m) →
      ∀ r rs, ValidInput r → (∀ s ∈ rs, ValidInput s) →
        predictOne M r = .ok (round2 (max 0 (m r))) ∧
        (predictBatch M [r]).1.head? = some (round2 (max 0 (m r))) ∧
        (predictBatch M rs).1 = rs.map (fun s => round2 (max 0 (m s))) ∧
        (predictBatch M rs).2 = rs.length ∧
        ∀ p ∈ (predictBatch M rs).1, 0 ≤ p := by
  intro M m hM r rs hv hvs
  have h1 : M [r] = [m r] := by rw [hM]; rfl
  refine ⟨by simp [predictOne, h1], by simp [predictBatch, h1], ?_, ?_, ?_⟩
  · simp [predictBatch, hM, List.map_map]
  · simp [predictBatch, hM]
  · intro p hp
    simp only [predictBatch, hM, List.map_map, List.mem_map] at hp
    obtain ⟨s, hs, rfl⟩ := hp
    exact round2_nonneg _ (le_max_left _ _)

/-- Witness for the C8 theorem: the concrete row-wise model `MW` on the
documented example record and a three-record batch. -/
theorem c8_batch_single_witness :
    predictOne MW exampleInput = .ok (round2 (max 0 (mW exampleInput))) ∧
    (predictBatch MW [exampleInput]).1.head? =
      some (round2 (max 0 (mW exampleInput))) ∧
    (predictBatch MW [exampleInput, exampleInput2, exampleInput3]).1 =
      [exampleInput, exampleInput2, exampleInput3].map
        (fun s => round2 (max 0 (mW s))) ∧
    (predictBatch MW [exampleInput, exampleInput2, exampleInput3]).2 =
      ([exampleInput, exampleInput2, exampleInput3] : List PredInput).length ∧
    ∀ p ∈ (predictBatch MW [exampleInput, exampleInput2, exampleInput3]).1, 0 ≤ p :=
  c8_batch_single MW mW (fun rs => rfl) exampleInput
    [exampleInput, exampleInput2, exampleInput3] (by decide) (by decide)

/-- C9: on any valid record for which the model returns a prediction, the
single-prediction endpoint returns a non-negative value equal to the raw
model output clamped at zero and then rounded to two decimal places (an
integer multiple of 1/100); a non-positive raw output yields exactly 0. -/
theorem c9_predict_nonneg :
    ∀ (M : List PredInput → List ℚ) (r : PredInput) (p : ℚ) (ps : List ℚ),
      ValidInput r → M [r] = p :: ps →
      ∃ v, predictOne M r = .ok v ∧ 0 ≤ v ∧ v = round2 (max 0 p) ∧
        (∃ k : ℤ, v = (k : ℚ)/100) ∧ (p ≤ 0 → v = 0) := by
  intro M r p ps hv hM
  refine ⟨round2 (max 0 p), by simp [predictOne, hM],
    round2_nonneg _ (le_max_left _ _), rfl, ⟨pyRound (max 0 p * 100), rfl⟩, ?_⟩
  intro hp
  rw [max_eq_left hp, round2_zero]

/-- Witness for the C9 theorem: a model that predicts -5 hours on the
documented example record; the service clamps the output to 0. -/
theorem c9_predict_nonneg_witness :
    ∃ v, predictOne (fun _ => [(-5 : ℚ)]) exampleInput = .ok v ∧ 0 ≤ v ∧
      v = round2 (max 0 (-5)) ∧ (∃ k : ℤ, v = (k : ℚ)/100) ∧
      ((-5 : ℚ) ≤ 0 → v = 0) :=
  c9_predict_nonneg (fun _ => [(-5 : ℚ)]) exampleInput (-5) [] (by decide) rfl

theorem mem_dedupAux (x : List ℚ) :
    ∀ (l seen : List (List ℚ)), x ∈ dedupAux seen l ↔ x ∈ l ∧ x ∉ seen := by
  intro l
  induction l with
  | nil => intro seen; simp [dedupAux]
  | cons r rs ih =>
    intro seen
    by_cases hr : r ∈ seen
    · rw [dedupAux, if_pos hr, ih]
      constructor
      · rintro ⟨hm, hns⟩
        exact ⟨List.mem_cons_of_mem _ hm, hns⟩
      · rintro ⟨hm, hns⟩
        rcases List.mem_cons.mp hm with rfl | hm'
        · exact absurd hr hns
        · exact ⟨hm', hns⟩
    · rw [dedupAux, if_neg hr]
      constructor
      · intro hm
        rcases List.mem_cons.mp hm with rfl | hm'
        · exact ⟨List.mem_cons_self _ _, hr⟩
        · obtain ⟨hm2, hns⟩ := (ih (r :: seen)).mp hm'
          exact ⟨List.mem_cons_of_mem _ hm2,
            fun hs => hns (List.mem_cons_of_mem _ hs)⟩
      · rintro ⟨hm, hns⟩
        rcases List.mem_cons.mp hm with rfl | hm'
        · exact List.mem_cons_self _ _
        · by_cases hxr : x = r
          · subst hxr
            exact List.mem_cons_self _ _
          · refine List.mem_cons_of_mem _ ((ih (r :: seen)).mpr ⟨hm', ?_⟩)
            intro hs
            rcases List.mem_cons.mp hs with he | hs'
            · exact hxr he
            · exact hns hs'

theorem countP_eq_one_of_nodup (r : List ℚ) :
    ∀ l : List (List ℚ), l.Nodup → r ∈ l →
      l.countP (fun s => decide (s = r)) = 1 := by
  intro l
  induction l with
  | nil => intro _ h; cases h
  | cons a t ih =>
    intro hnd hm
    obtain ⟨hna, hndt⟩ := List.nodup_cons.mp hnd
    rcases List.mem_cons.mp hm with rfl | hm'
    · have ht0 : t.countP (fun s => decide (s = r)) = 0 := by
        rw [List.countP_eq_zero]
        intro x hx
        simp only [decide_eq_true_eq]
        intro he
        exact hna (he ▸ hx)
      rw [List.countP_cons]
      simp [ht0]
    · have hne : ¬ (a = r) := fun he => hna (he ▸ hm')
      rw [List.countP_cons]
      simp [hne, ih hndt hm']

theorem nodup_dedupAux :
    ∀ (l seen : List (List ℚ)), (dedupAux seen l).Nodup := by
  intro l
  induction l with
  | nil => intro seen; simp [dedupAux]
  | cons r rs ih =>
    intro seen
    by_cases hr : r ∈ seen
    · rw [dedupAux, if_pos hr]
      exact ih seen
    · rw [dedupAux, if_neg hr]
      refine List.nodup_cons.mpr ⟨?_, ih (r :: seen)⟩
      intro hmem
      exact ((mem_dedupAux r rs (r :: seen)).mp hmem).2 (List.mem_cons_self _ _)

/-- C10 (implicit): `prepare_features` silently drops duplicate rows
(keeping first occurrences) before splitting features from the target, so
the feature matrix and target the training loop works with enumerate the
deduplicated rows — each distinct input row exactly once — and not the
dataset as stored. -/
theorem c10_dedup :
    ∀ (df : DataFrame) (target : String) (j : ℕ) (X : List (List ℚ)) (y : List ℚ),
      df.cols.indexOf? target = some j →
      prepareFeatures df target = .ok (X, y) →
      X = (dropDuplicates df.rows).map (fun r => r.eraseIdx j) ∧
      y = (dropDuplicates df.rows).map (fun r => r.getD j 0) ∧
      (dropDuplicates df.rows).Nodup ∧
      (∀ r, r ∈ dropDuplicates df.rows ↔ r ∈ df.rows) ∧
      ∀ r ∈ df.rows, (dropDuplicates df.rows).countP (fun s => decide (s = r)) = 1 := by
  intro df target j X y hidx hok
  unfold prepareFeatures at hok
  rw [hidx] at hok
  simp only [Except.ok.injEq, Prod.mk.injEq] at hok
  obtain ⟨hX, hy⟩ := hok
  subst hX
  subst hy
  refine ⟨rfl, rfl, nodup_dedupAux _ _, ?_, ?_⟩
  · intro r
    rw [dropDuplicates, mem_dedupAux]
    simp
  · intro r hr
    have hmem : r ∈ dropDuplicates df.rows := by
      rw [dropDuplicates, mem_dedupAux]
      exact ⟨hr, by simp⟩
    exact countP_eq_one_of_nodup r _ (nodup_dedupAux _ _) hmem

/-- Witness for the C10 theorem on `DF10`, whose first row is duplicated:
training sees each distinct row once. -/
theorem c10_dedup_witness :
    ([[1], [3]] : List (List ℚ)) =
      (dropDuplicates DF10.rows).map (fun r => r.eraseIdx 1) ∧
    ([2, 4] : List ℚ) = (dropDuplicates DF10.rows).map (fun r => r.getD 1 0) ∧
    (dropDuplicates DF10.rows).Nodup ∧
    (∀ r, r ∈ dropDuplicates DF10.rows ↔ r ∈ DF10.rows) ∧
    ∀ r ∈ DF10.rows, (dropDuplicates DF10.rows).countP (fun s => decide (s = r)) = 1 :=
  c10_dedup DF10 "Absenteeism time in hours" 1 [[1], [3]] [2, 4]
    (by decide) (by decide)

end Absenteeism
